import Mathlib

/-!
Verification development for `real_time_prediction.py`: a real-time
physiological-signal pipeline that buffers multi-channel samples, aggregates
them every cycle, derives a Blood Volume Amplitude (BVA) feature by peak
detection, classifies the features into a cognitive-load label and raises a
debounced UDP alert when the label is sustained for 10 consecutive cycles.

Sample values are modelled as rationals (`ℚ`), Python `None` as `Option`,
a raised Python exception as `Except.error`, and the `collections.deque`
bounded buffers by explicit list operations.
-/

/-- Append to a Python `collections.deque` with `maxlen = cap`: the new element
goes to the right and the leftmost elements are evicted until the length is at
most `cap`. -/
def pushDeque (cap : Nat) (h : List α) (a : α) : List α :=
  let h2 := h ++ [a]
  h2.drop (h2.length - cap)

/-- Models Python `str.upper()`: map every character to upper case
(`Char.toUpper`, which covers the ASCII labels this program produces). -/
def pyUpper (s : String) : String := ⟨s.data.map Char.toUpper⟩

/-- `send_unity_alert` from the source: attempt the UDP datagram send
(`transport`), and swallow any raised exception (both branches just log and
return). The `Except.error` case models `unity_socket.sendto` raising. -/
def send_unity_alert (transport : String → Except String Unit) (message : String) : Unit :=
  match transport message with
  | Except.ok _ => ()
  | Except.error _ => ()

/-- The alert-debouncer step from the tail of `aggregate_and_save`:
`last_predictions.append(cognitive_load)` on a `deque(maxlen=10)`, then if the
history has at least 10 entries and `len(set(last_predictions)) == 1`, send
`ALERT|<LABEL>` (upper-cased) and clear the history. Returns the new history
and the message sent, if any. -/
def alertStep (transport : String → Except String Unit) (history : List String)
    (label : String) : List String × Option String :=
  let h := pushDeque 10 history label
  if 10 ≤ h.length ∧ h.dedup.length = 1 then
    let msg := "ALERT|" ++ pyUpper label
    let _ := send_unity_alert transport msg
    ([], some msg)
  else
    (h, none)

/-- Feed a sequence of labels through the alert debouncer, collecting every
alert message sent; returns the final history and the sent messages in order. -/
def runAlerts (transport : String → Except String Unit) (history : List String) :
    List String → List String × List String
  | [] => (history, [])
  | l :: ls =>
    let step := alertStep transport history l
    let rest := runAlerts transport step.1 ls
    (rest.1, step.2.toList ++ rest.2)

/-- A transport whose sends always succeed. -/
def okTransport : String → Except String Unit := fun _ => Except.ok ()

theorem alertStep_def (t : String → Except String Unit) (h : List String) (l : String) :
    alertStep t h l =
      if 10 ≤ (pushDeque 10 h l).length ∧ (pushDeque 10 h l).dedup.length = 1 then
        ([], some ("ALERT|" ++ pyUpper l))
      else (pushDeque 10 h l, none) := rfl

-- Basic facts about the deque push.

theorem pushDeque_of_lt_cap {cap : Nat} {h : List α} {a : α} (hlen : h.length < cap) :
    pushDeque cap h a = h ++ [a] := by
  unfold pushDeque
  simp only [List.length_append, List.length_cons, List.length_nil]
  have : h.length + 1 - cap = 0 := by omega
  simp [this]

theorem pushDeque_of_full {h : List α} {a : α} (hlen : h.length = 10) :
    pushDeque 10 h a = h.tail ++ [a] := by
  unfold pushDeque
  simp only [List.length_append, List.length_cons, List.length_nil]
  have h1 : h.length + (0 + 1) - 10 = 1 := by omega
  rw [h1]
  cases h with
  | nil => simp at hlen
  | cons x xs => simp

theorem pushDeque_length_le {cap : Nat} {h : List α} {a : α} (hlen : h.length ≤ cap) :
    (pushDeque cap h a).length ≤ cap := by
  unfold pushDeque
  simp only [List.length_drop, List.length_append, List.length_cons, List.length_nil]
  omega

theorem alertStep_length_le {t : String → Except String Unit} {h : List String}
    {l : String} (hlen : h.length ≤ 10) : (alertStep t h l).1.length ≤ 10 := by
  rw [alertStep_def]
  split
  · simp
  · exact pushDeque_length_le hlen

theorem runAlerts_length_le (t : String → Except String Unit) (ls : List String)
    (h : List String) (hlen : h.length ≤ 10) : (runAlerts t h ls).1.length ≤ 10 := by
  induction ls generalizing h with
  | nil => simpa [runAlerts] using hlen
  | cons l ls ih =>
    simp only [runAlerts]
    exact ih _ (alertStep_length_le hlen)

/-- While the history stays strictly shorter than 10 no alert can fire: feeding
`ls` into history `h` with `h.length + ls.length ≤ 9` just appends. -/
theorem runAlerts_short (t : String → Except String Unit) (ls : List String)
    (h : List String) (hlen : h.length + ls.length ≤ 9) :
    runAlerts t h ls = (h ++ ls, []) := by
  induction ls generalizing h with
  | nil => simp [runAlerts]
  | cons l ls ih =>
    simp only [runAlerts]
    have hstep : alertStep t h l = (h ++ [l], none) := by
      rw [alertStep_def, pushDeque_of_lt_cap (by simp at hlen ⊢; omega)]
      apply if_neg
      rintro ⟨h1, -⟩
      simp only [List.length_append, List.length_cons, List.length_nil] at h1
      simp at hlen
      omega
    rw [hstep]
    have := ih (h ++ [l]) (by simp at hlen ⊢; omega)
    simp [this]

theorem runAlerts_append (t : String → Except String Unit) (l1 l2 : List String)
    (h : List String) :
    runAlerts t h (l1 ++ l2) =
      ((runAlerts t (runAlerts t h l1).1 l2).1,
       (runAlerts t h l1).2 ++ (runAlerts t (runAlerts t h l1).1 l2).2) := by
  induction l1 generalizing h with
  | nil => simp [runAlerts]
  | cons x xs ih =>
    simp only [List.cons_append, runAlerts, List.append_eq]
    rw [ih]
    simp [List.append_assoc]

theorem dedup_replicate_succ (a : String) (n : Nat) :
    (List.replicate (n + 1) a).dedup = [a] := by
  induction n with
  | zero => simp [List.dedup]
  | succ m ih =>
    rw [List.replicate_succ,
      List.dedup_cons_of_mem (List.mem_replicate.mpr ⟨by omega, rfl⟩)]
    exact ih

theorem dedup_length_ne_one_of_two_mem {l : List String} {a b : String}
    (ha : a ∈ l) (hb : b ∈ l) (hab : a ≠ b) : l.dedup.length ≠ 1 := by
  intro hone
  obtain ⟨x, hx⟩ := List.length_eq_one.mp hone
  have ha' : a ∈ l.dedup := List.mem_dedup.mpr ha
  have hb' : b ∈ l.dedup := List.mem_dedup.mpr hb
  rw [hx] at ha' hb'
  simp at ha' hb'
  exact hab (ha'.trans hb'.symm)

theorem alertStep_fire (t : String → Except String Unit) (a : String) :
    alertStep t (List.replicate 9 a) a = ([], some ("ALERT|" ++ pyUpper a)) := by
  rw [alertStep_def, pushDeque_of_lt_cap (by simp)]
  rw [show List.replicate 9 a ++ [a] = List.replicate 10 a from
    (List.replicate_succ' 9 a).symm]
  rw [if_pos ⟨by simp,
    by rw [show (10:Nat) = 9 + 1 from rfl, dedup_replicate_succ]; rfl⟩]

theorem runAlerts_singleton (t : String → Except String Unit) (h : List String)
    (l : String) :
    runAlerts t h [l] = ((alertStep t h l).1, (alertStep t h l).2.toList) := by
  simp [runAlerts]

/-- A transport whose sends always fail (the datagram send raises). -/
def failTransport : String → Except String Unit := fun _ => Except.error "send failed"

/-- C1: starting from an empty alert history, feeding 10 consecutive identical
labels fires exactly one alert, at the 10th label, carrying that label
(`ALERT|<LABEL>` upper-cased); after 9 feeds nothing has fired yet and the
history holds the 9 labels; immediately after firing the history is empty; and
from an empty history no sequence of fewer than 10 labels can fire an alert. -/
theorem alert_fires_once_at_tenth (t : String → Except String Unit) (a : String) :
    runAlerts t [] (List.replicate 9 a) = (List.replicate 9 a, []) ∧
    runAlerts t [] (List.replicate 10 a) = ([], ["ALERT|" ++ pyUpper a]) ∧
    (∀ ls : List String, ls.length < 10 → (runAlerts t [] ls).2 = []) := by
  refine ⟨?_, ?_, ?_⟩
  · simpa using runAlerts_short t _ [] (by simp)
  · rw [show List.replicate 10 a = List.replicate 9 a ++ [a] from
      List.replicate_succ' 9 a, runAlerts_append,
      runAlerts_short t _ [] (by simp)]
    simp only [List.nil_append]
    rw [runAlerts_singleton, alertStep_fire]
    simp
  · intro ls hls
    rw [runAlerts_short t ls [] (by simp only [List.length_nil]; omega)]

theorem alert_fires_once_at_tenth_witness :
    runAlerts okTransport [] (List.replicate 9 "high") = (List.replicate 9 "high", []) ∧
    runAlerts okTransport [] (List.replicate 10 "high") = ([], ["ALERT|HIGH"]) ∧
    (runAlerts okTransport [] ["a", "b", "c"]).2 = [] := by
  obtain ⟨h1, h2, h3⟩ := alert_fires_once_at_tenth okTransport "high"
  refine ⟨h1, ?_, h3 ["a", "b", "c"] (by decide)⟩
  rw [h2]
  decide

/-- C2: the alert history length never exceeds 10 after any sequence of feeds;
appending to a full history whose resulting 10 entries are not all equal evicts
exactly the oldest entry and fires nothing; and feeding 9 identical labels then
1 different one from an empty history never fires and leaves the 10-entry
history `a,…,a,b` (the 9 identical labels intact, the different one appended). -/
theorem history_sliding_window (t : String → Except String Unit) (ls : List String)
    (h : List String) (l a b : String) (hab : a ≠ b) :
    (h.length ≤ 10 → (runAlerts t h ls).1.length ≤ 10) ∧
    (h.length = 10 → (h.tail ++ [l]).dedup.length ≠ 1 →
      alertStep t h l = (h.tail ++ [l], none)) ∧
    runAlerts t [] (List.replicate 9 a ++ [b]) = (List.replicate 9 a ++ [b], []) := by
  refine ⟨fun hle => runAlerts_length_le t ls h hle, ?_, ?_⟩
  · intro hfull hne
    rw [alertStep_def, pushDeque_of_full hfull, if_neg]
    rintro ⟨-, hone⟩
    exact hne hone
  · rw [runAlerts_append, runAlerts_short t _ [] (by simp)]
    have hstep : alertStep t (List.replicate 9 a) b =
        (List.replicate 9 a ++ [b], none) := by
      rw [alertStep_def, pushDeque_of_lt_cap (by simp), if_neg]
      rintro ⟨-, hone⟩
      exact dedup_length_ne_one_of_two_mem
        (List.mem_append_left _ (List.mem_replicate.mpr ⟨by omega, rfl⟩))
        (List.mem_append_right _ (List.mem_singleton.mpr rfl)) hab hone
    simp only [List.nil_append]
    rw [runAlerts_singleton, hstep]
    simp

theorem history_sliding_window_witness :
    (runAlerts okTransport (List.replicate 10 "a") ["z"]).1.length ≤ 10 ∧
    alertStep okTransport (List.replicate 10 "a") "b" =
      ((List.replicate 10 "a").tail ++ ["b"], none) ∧
    runAlerts okTransport [] (List.replicate 9 "a" ++ ["b"]) =
      (List.replicate 9 "a" ++ ["b"], []) := by
  obtain ⟨h1, h2, h3⟩ := history_sliding_window okTransport ["z"]
    (List.replicate 10 "a") "b" "a" "b" (by decide)
  exact ⟨h1 (by decide), h2 (by decide) (by decide), h3⟩

/-- C7: when an alert fires the message is exactly `"ALERT|" ++ pyUpper label`;
the debouncer's result (including the cleared history) is entirely independent
of whether the datagram send succeeds or raises; after firing the history is
empty; and `send_unity_alert` swallows a raising transport (returns unit, never
propagates). -/
theorem alert_send_failure_swallowed (t1 t2 : String → Except String Unit)
    (h : List String) (label m e : String) :
    alertStep t1 h label = alertStep t2 h label ∧
    ((alertStep t1 h label).2 = some m → m = "ALERT|" ++ pyUpper label) ∧
    ((alertStep t1 h label).2 = some m → (alertStep t1 h label).1 = []) ∧
    (t1 label = Except.error e → send_unity_alert t1 label = ()) := by
  refine ⟨by rw [alertStep_def, alertStep_def], ?_, ?_, fun _ => rfl⟩
  · intro hm
    rw [alertStep_def] at hm
    split at hm
    · simpa using hm.symm
    · simp at hm
  · intro hm
    rw [alertStep_def] at hm ⊢
    split at hm
    · simp_all
    · simp at hm

theorem alert_send_failure_swallowed_witness :
    alertStep failTransport (List.replicate 9 "high") "high" =
      alertStep okTransport (List.replicate 9 "high") "high" ∧
    "ALERT|HIGH" = "ALERT|" ++ pyUpper "high" ∧
    (alertStep failTransport (List.replicate 9 "high") "high").1 = [] ∧
    send_unity_alert failTransport "high" = () := by
  obtain ⟨h1, h2, h3, h4⟩ := alert_send_failure_swallowed failTransport okTransport
    (List.replicate 9 "high") "high" "ALERT|HIGH" "send failed"
  refine ⟨h1, h2 ?_, h3 ?_, h4 rfl⟩ <;>
    · rw [alertStep_fire]; decide

/-!
`compute_bva` and its peak detection. `scipy.signal.find_peaks` with default
arguments returns the indices produced by `_local_maxima_1d`: scan `i` from `1`
to `n-2`; when `x[i-1] < x[i]`, look ahead past the plateau of values equal to
`x[i]`; if the first differing sample (or the last sample) is smaller, record
the plateau midpoint `(left_edge + right_edge) // 2` and resume after the
plateau, otherwise resume at `i+1`. The loop advances `i` by at least one per
iteration, so fuel `x.length` always suffices; the recursion is written on
explicit fuel so that it evaluates by `decide`/`rfl`.
-/

/-- Plateau scan of `_local_maxima_1d`: smallest `j' ≥ j` with
`j' + 1 ≥ x.length` or `x[j'] ≠ v` (out-of-range reads use default `0`, but the
callers stay in range). -/
def scanAheadF (x : List ℚ) (v : ℚ) : Nat → Nat → Nat
  | 0, j => j
  | fuel + 1, j =>
    if j + 1 < x.length then
      if x.getD j 0 = v then scanAheadF x v fuel (j + 1) else j
    else j

def scanAhead (x : List ℚ) (v : ℚ) (j : Nat) : Nat := scanAheadF x v x.length j

/-- The main loop of `_local_maxima_1d`, on explicit fuel. -/
def lmAuxF (x : List ℚ) : Nat → Nat → List Nat
  | 0, _ => []
  | fuel + 1, i =>
    if i + 1 < x.length then
      if x.getD (i - 1) 0 < x.getD i 0 then
        if x.getD (scanAhead x (x.getD i 0) (i + 1)) 0 < x.getD i 0 then
          (i + scanAhead x (x.getD i 0) (i + 1) - 1) / 2 ::
            lmAuxF x fuel (scanAhead x (x.getD i 0) (i + 1) + 1)
        else lmAuxF x fuel (i + 1)
      else lmAuxF x fuel (i + 1)
    else []

/-- `scipy.signal.find_peaks(x)[0]` with default arguments: the indices of the
local maxima of `x`, in increasing order. -/
def find_peaks (x : List ℚ) : List Nat := lmAuxF x x.length 1

/-- Python's built-in `abs` on a rational value. -/
def ratAbs (q : ℚ) : ℚ := if q < 0 then -q else q

/-- `compute_bva` from the source: `None` below 10 samples; peaks from
`find_peaks(x)`, troughs from `find_peaks(-x)`; `None` when either is empty;
otherwise `abs(x[peaks[-1]] - x[troughs[-1]])`. -/
def compute_bva (ppg_values : List ℚ) : Option ℚ :=
  if ppg_values.length < 10 then none
  else if (find_peaks ppg_values).isEmpty ||
      (find_peaks (ppg_values.map (fun v => -v))).isEmpty then none
  else some (ratAbs (ppg_values.getD ((find_peaks ppg_values).getLastD 0) 0 -
    ppg_values.getD ((find_peaks (ppg_values.map (fun v => -v))).getLastD 0) 0))

theorem ratAbs_eq_abs (q : ℚ) : ratAbs q = |q| := by
  unfold ratAbs
  by_cases h : q < 0
  · rw [if_pos h, abs_of_neg h]
  · rw [if_neg h, abs_of_nonneg (not_lt.mp h)]

theorem scanAheadF_ge (x : List ℚ) (v : ℚ) (fuel j : Nat) :
    j ≤ scanAheadF x v fuel j := by
  induction fuel generalizing j with
  | zero => simp [scanAheadF]
  | succ f ih =>
    simp only [scanAheadF]
    split
    · split
      · exact le_trans (Nat.le_succ j) (ih (j + 1))
      · exact le_refl j
    · exact le_refl j

theorem scanAheadF_stop {x : List ℚ} {v : ℚ} {j : Nat}
    (h : ¬ (j + 1 < x.length) ∨ x.getD j 0 ≠ v) (fuel : Nat) :
    scanAheadF x v fuel j = j := by
  cases fuel with
  | zero => rfl
  | succ f =>
    simp only [scanAheadF]
    rcases h with h | h
    · rw [if_neg h]
    · by_cases hj : j + 1 < x.length
      · rw [if_pos hj, if_neg h]
      · rw [if_neg hj]

/-- If some index at or beyond `i` is a strict local maximum, the main loop
started at `i` records at least one peak. -/
theorem lmAuxF_ne_nil (x : List ℚ) (p : Nat) (hp : p + 1 < x.length)
    (h1 : x.getD (p - 1) 0 < x.getD p 0) (h2 : x.getD (p + 1) 0 < x.getD p 0) :
    ∀ fuel i, x.length - i ≤ fuel → i ≤ p → lmAuxF x fuel i ≠ [] := by
  intro fuel
  induction fuel with
  | zero => intro i hfuel hip; exfalso; omega
  | succ f ih =>
    intro i hfuel hip
    have hin : i + 1 < x.length := by omega
    simp only [lmAuxF]
    rw [if_pos hin]
    by_cases hb : x.getD (i - 1) 0 < x.getD i 0
    · rw [if_pos hb]
      by_cases hpk : x.getD (scanAhead x (x.getD i 0) (i + 1)) 0 < x.getD i 0
      · rw [if_pos hpk]
        simp
      · rw [if_neg hpk]
        have hne : i ≠ p := by
          intro he
          subst he
          have hstop : scanAhead x (x.getD i 0) (i + 1) = i + 1 :=
            scanAheadF_stop (Or.inr (ne_of_lt h2)) _
          rw [hstop] at hpk
          exact hpk h2
        exact ih (i + 1) (by omega) (by omega)
    · rw [if_neg hb]
      have hne : i ≠ p := fun he => hb (he ▸ h1)
      exact ih (i + 1) (by omega) (by omega)

/-- A strict local maximum (`x[p-1] < x[p] > x[p+1]`) guarantees a detected
peak. -/
theorem find_peaks_ne_nil (x : List ℚ) (p : Nat) (hp : p + 1 < x.length)
    (h1 : x.getD (p - 1) 0 < x.getD p 0) (h2 : x.getD (p + 1) 0 < x.getD p 0) :
    find_peaks x ≠ [] := by
  have hp1 : 1 ≤ p := by
    rcases Nat.eq_zero_or_pos p with h0 | h0
    · subst h0
      simp at h1
    · exact h0
  exact lmAuxF_ne_nil x p hp h1 h2 x.length 1 (by omega) hp1

/-- On an adjacent-strictly-increasing list the loop finds no peak. -/
theorem lmAuxF_eq_nil_of_incr (x : List ℚ)
    (hmono : ∀ j, j + 1 < x.length → x.getD j 0 < x.getD (j + 1) 0) :
    ∀ fuel i, 1 ≤ i → lmAuxF x fuel i = [] := by
  intro fuel
  induction fuel with
  | zero => intro i _; rfl
  | succ f ih =>
    intro i hi
    simp only [lmAuxF]
    by_cases hin : i + 1 < x.length
    · rw [if_pos hin]
      have hb : x.getD (i - 1) 0 < x.getD i 0 := by
        have := hmono (i - 1) (by omega)
        rwa [show i - 1 + 1 = i from by omega] at this
      rw [if_pos hb]
      have hstop : scanAhead x (x.getD i 0) (i + 1) = i + 1 :=
        scanAheadF_stop (Or.inr (ne_of_gt (hmono i hin))) _
      rw [hstop, if_neg (not_lt.mpr (le_of_lt (hmono i hin)))]
      exact ih (i + 1) (by omega)
    · rw [if_neg hin]

/-- On an adjacent-strictly-decreasing list the loop finds no peak. -/
theorem lmAuxF_eq_nil_of_decr (x : List ℚ)
    (hmono : ∀ j, j + 1 < x.length → x.getD (j + 1) 0 < x.getD j 0) :
    ∀ fuel i, 1 ≤ i → lmAuxF x fuel i = [] := by
  intro fuel
  induction fuel with
  | zero => intro i _; rfl
  | succ f ih =>
    intro i hi
    simp only [lmAuxF]
    by_cases hin : i + 1 < x.length
    · rw [if_pos hin]
      have hb : ¬ (x.getD (i - 1) 0 < x.getD i 0) := by
        have := hmono (i - 1) (by omega)
        rw [show i - 1 + 1 = i from by omega] at this
        exact not_lt.mpr (le_of_lt this)
      rw [if_neg hb]
      exact ih (i + 1) (by omega)
    · rw [if_neg hin]

theorem getD_map_neg (xs : List ℚ) (i : Nat) (h : i < xs.length) :
    (xs.map (fun v => -v)).getD i 0 = -(xs.getD i 0) := by
  rw [List.getD_eq_getElem _ _ (by simpa using h), List.getD_eq_getElem _ _ h,
    List.getElem_map]

theorem chain_lt_getD {xs : List ℚ} (hc : List.Chain' (· < ·) xs) (j : Nat)
    (hj : j + 1 < xs.length) : xs.getD j 0 < xs.getD (j + 1) 0 := by
  rw [List.getD_eq_getElem _ _ (by omega), List.getD_eq_getElem _ _ hj]
  exact List.chain'_iff_get.mp hc j (by omega)

theorem chain_gt_getD {xs : List ℚ} (hc : List.Chain' (· > ·) xs) (j : Nat)
    (hj : j + 1 < xs.length) : xs.getD (j + 1) 0 < xs.getD j 0 := by
  rw [List.getD_eq_getElem _ _ hj, List.getD_eq_getElem _ _ (show j < xs.length by omega)]
  exact List.chain'_iff_get.mp hc j (by omega)

unseal Rat.sub in
/-- C3: for every sample sequence of length at least 10 with a strict local
maximum and a strict local minimum, `compute_bva` returns the absolute
difference between the value at the highest-index detected peak and the value
at the highest-index detected trough; on `[1,5,2,8,3,9,1,6,2,7]` this is
`|6 - 2|` (last peak value 6, last trough value 2), which differs from the
full-waveform amplitude `|9 - 1|` (max peak minus min trough). -/
theorem compute_bva_last_peak_last_trough (xs : List ℚ) (hlen : 10 ≤ xs.length)
    (hmax : ∃ p, p + 1 < xs.length ∧ xs.getD (p - 1) 0 < xs.getD p 0 ∧
      xs.getD (p + 1) 0 < xs.getD p 0)
    (hmin : ∃ q, q + 1 < xs.length ∧ xs.getD q 0 < xs.getD (q - 1) 0 ∧
      xs.getD q 0 < xs.getD (q + 1) 0) :
    compute_bva xs =
      some |xs.getD ((find_peaks xs).getLastD 0) 0 -
        xs.getD ((find_peaks (xs.map (fun v => -v))).getLastD 0) 0| ∧
    compute_bva [1, 5, 2, 8, 3, 9, 1, 6, 2, 7] = some |(6 : ℚ) - 2| ∧
    |(6 : ℚ) - 2| ≠ |(9 : ℚ) - 1| := by
  refine ⟨?_, ?_, ?_⟩
  · obtain ⟨p, hp, h1, h2⟩ := hmax
    obtain ⟨q, hq, g1, g2⟩ := hmin
    have hpeaks : find_peaks xs ≠ [] := find_peaks_ne_nil xs p hp h1 h2
    have htroughs : find_peaks (xs.map (fun v => -v)) ≠ [] := by
      apply find_peaks_ne_nil (xs.map (fun v => -v)) q (by simpa using hq)
      · rw [getD_map_neg _ _ (by omega), getD_map_neg _ _ (by omega)]
        exact neg_lt_neg g1
      · rw [getD_map_neg _ _ (by omega), getD_map_neg _ _ (by omega)]
        exact neg_lt_neg g2
    have e1 : (find_peaks xs).isEmpty = false := by
      cases hfp : find_peaks xs with
      | nil => exact absurd hfp hpeaks
      | cons a l => rfl
    have e2 : (find_peaks (xs.map (fun v => -v))).isEmpty = false := by
      cases hfp : find_peaks (xs.map (fun v => -v)) with
      | nil => exact absurd hfp htroughs
      | cons a l => rfl
    rw [compute_bva, if_neg (not_lt.mpr hlen), e1, e2]
    simp only [Bool.or_false, Bool.false_eq_true, if_false, ratAbs_eq_abs]
  · rw [show |(6 : ℚ) - 2| = ratAbs (6 - 2) from (ratAbs_eq_abs _).symm]
    decide
  · rw [show |(6 : ℚ) - 2| = ratAbs (6 - 2) from (ratAbs_eq_abs _).symm,
      show |(9 : ℚ) - 1| = ratAbs (9 - 1) from (ratAbs_eq_abs _).symm]
    decide

theorem compute_bva_last_peak_last_trough_witness :
    compute_bva [1, 5, 2, 8, 3, 9, 1, 6, 2, 7] = some |(6 : ℚ) - 2| :=
  (compute_bva_last_peak_last_trough [1, 5, 2, 8, 3, 9, 1, 6, 2, 7] (by decide)
    ⟨1, by decide⟩ ⟨2, by decide⟩).2.1

/-- C4: `compute_bva` returns `none` for every input of length below 10, for
every input of length at least 10 whose peak set or trough set is empty, and
for every strictly monotonic input (in particular it is a total function that
never raises on such inputs). -/
theorem compute_bva_undefined (xs : List ℚ) :
    (xs.length < 10 → compute_bva xs = none) ∧
    (10 ≤ xs.length →
      (find_peaks xs = [] ∨ find_peaks (xs.map (fun v => -v)) = []) →
      compute_bva xs = none) ∧
    (List.Chain' (· < ·) xs ∨ List.Chain' (· > ·) xs → compute_bva xs = none) := by
  have hshort : ∀ _ : xs.length < 10, compute_bva xs = none := fun h => by
    rw [compute_bva, if_pos h]
  have hempty : (find_peaks xs = [] ∨ find_peaks (xs.map (fun v => -v)) = []) →
      ¬ (xs.length < 10) → compute_bva xs = none := by
    intro hor hge
    have hcond : ((find_peaks xs).isEmpty ||
        (find_peaks (xs.map (fun v => -v))).isEmpty) = true := by
      rcases hor with h | h <;> simp [h]
    rw [compute_bva, if_neg hge, if_pos hcond]
  refine ⟨hshort, fun _ hor => ?_, fun hmono => ?_⟩
  · by_cases hlt : xs.length < 10
    · exact hshort hlt
    · exact hempty hor hlt
  · by_cases hlt : xs.length < 10
    · exact hshort hlt
    · apply hempty (Or.inl ?_) hlt
      rcases hmono with hc | hc
      · exact lmAuxF_eq_nil_of_incr xs (fun j hj => chain_lt_getD hc j hj)
          xs.length 1 (by omega)
      · exact lmAuxF_eq_nil_of_decr xs (fun j hj => chain_gt_getD hc j hj)
          xs.length 1 (by omega)

theorem compute_bva_undefined_witness :
    compute_bva [1, 2, 3] = none ∧
    compute_bva [1, 2, 3, 4, 5, 6, 7, 8, 9, 10, 11] = none := by
  constructor
  · exact (compute_bva_undefined [1, 2, 3]).1 (by decide)
  · exact (compute_bva_undefined [1, 2, 3, 4, 5, 6, 7, 8, 9, 10, 11]).2.2
      (Or.inl (by norm_num [List.chain'_cons]))

/-!
The classifier adapter, the per-cycle min–max rescale of the BVA, and one
iteration of the `aggregate_and_save` loop.
-/

/-- sklearn's `_handle_zeros_in_scale`: a zero range is replaced by 1 so the
transform never divides by zero. -/
def handleZeroInScale (s : ℚ) : ℚ := if s = 0 then 1 else s

/-- Models sklearn `MinMaxScaler(feature_range=(lo, hi)).fit_transform` on the
single-sample, single-feature input `[[v]]` (the call
`bva_scaler.fit_transform([[bva_value]])[0][0]` in `aggregate_and_save`):
`data_min = data_max = v`, `scale = (hi - lo) / handleZeroInScale (v - v)`,
and the transform maps `v` to `v * scale + (lo - v * scale)`. -/
def minmaxFitTransformSingle (lo hi v : ℚ) : ℚ :=
  v * ((hi - lo) / handleZeroInScale (v - v)) +
    (lo - v * ((hi - lo) / handleZeroInScale (v - v)))

/-- The four scoring collaborators returned by `load_ml_components`; `none`
models a collaborator that is `None` because loading raised (in which case the
source sets all four to `None`). A loaded collaborator is an opaque function
that may itself raise, modelled by `Except.error`. -/
structure MLComponents where
  clf : Option (List ℚ → Except String ℚ)
  std_scaler : Option (List ℚ → Except String (List ℚ))
  bva_scaler : Option (ℚ → Except String ℚ)
  label_encoder : Option (ℚ → Except String String)

/-- The `try` body of `predict_cognitive_load`: transform the BVA column,
scale the full `[EDA, Temp, BVA]` row, predict, decode the numeric label. Any
step may raise. -/
def scorePipeline (bvaS : ℚ → Except String ℚ)
    (stdS : List ℚ → Except String (List ℚ)) (clf : List ℚ → Except String ℚ)
    (enc : ℚ → Except String String) (eda temp bva : ℚ) :
    Except String String := do
  let b ← bvaS bva
  let fs ← stdS [eda, temp, b]
  let p ← clf fs
  enc p

/-- `predict_cognitive_load` from the source: `"MODEL_NOT_LOADED"` when any
collaborator is `None`, otherwise the pipeline's label with any raised
exception turned into `"PREDICTION_ERROR"`. -/
def predict_cognitive_load (c : MLComponents) (eda temp bva : ℚ) : String :=
  match c.clf, c.std_scaler, c.bva_scaler, c.label_encoder with
  | some clf, some stdS, some bvaS, some enc =>
    match scorePipeline bvaS stdS clf enc eda temp bva with
    | Except.ok label => label
    | Except.error _ => "PREDICTION_ERROR"
  | _, _, _, _ => "MODEL_NOT_LOADED"

/-- `fieldnames` from the source. -/
def fieldnames : List String :=
  ["timestamp", "ACC:X", "ACC:Y", "ACC:Z",
   "PPG:RED", "PPG:IR", "PPG:GRN", "EDA", "HUMIDITY", "TEMP", "T1", "HR", "BVA",
   "GYRO:X", "GYRO:Y", "GYRO:Z", "MAG:X", "MAG:Y", "MAG:Z"]

/-- One per-channel entry of the aggregated row: the arithmetic mean of the
buffered samples, or the explicit missing marker when no samples arrived
(`if data_buffer[key]: ... else: row[key] = None`). -/
def channelField (samples : List ℚ) : Option ℚ :=
  if samples.isEmpty then none else some (samples.sum / samples.length)

/-- Python `address.split("/")` on the character list: split at every `'/'`,
keeping empty components. -/
def splitSlash : List Char → List (List Char)
  | [] => [[]]
  | c :: rest =>
    if c = '/' then [] :: splitSlash rest
    else (c :: (splitSlash rest).headD []) :: (splitSlash rest).tail

/-- `generic_handler`'s channel-name computation: the last component of the
OSC address (`address.split("/")[-1]`), with the `TEMP2` alias remapped to
`T1`; samples are then stored under this name. -/
def generic_handler_signal (address : String) : String :=
  let signal := String.mk ((splitSlash address.data).getLastD [])
  if signal = "TEMP2" then "T1" else signal

/-- The per-channel fields of the `row` dictionary built by one cycle of
`aggregate_and_save`: `row["BVA"]` holds the raw BVA computed from the
`PPG:IR` buffer; every other key of `fieldnames[1:]` holds the mean of its
buffer or the missing marker; keys absent from the row are modelled as
`none`. -/
def rowOf (bs : String → List ℚ) (key : String) : Option ℚ :=
  if key = "BVA" then compute_bva (bs "PPG:IR")
  else if key ∈ fieldnames.tail then channelField (bs key) else none

/-- Everything one iteration of the `aggregate_and_save` loop produces: the
aggregated row, the feature row appended to the cognitive-load file, the
prediction row, the alert sent (if any) and the updated alert history. -/
structure CycleOutput where
  rowField : String → Option ℚ
  featureRow : Option (ℚ × ℚ × ℚ)
  predictionRow : Option (ℚ × ℚ × ℚ × String)
  alertSent : Option String
  newHistory : List String

/-- One iteration of the `aggregate_and_save` loop over the buffer state
`bs`: compute the BVA from `PPG:IR` and rescale it, build the row, and — when
`row["EDA"]`, `row["T1"]` and the scaled BVA are all present — classify,
record the prediction and feed the label to the alert debouncer. -/
def aggregate_cycle (c : MLComponents) (transport : String → Except String Unit)
    (bs : String → List ℚ) (history : List String) : CycleOutput :=
  match rowOf bs "EDA", rowOf bs "T1",
      (compute_bva (bs "PPG:IR")).map (minmaxFitTransformSingle 0 1) with
  | some e, some tv, some b =>
    { rowField := rowOf bs
      featureRow := some (e, tv, b)
      predictionRow := some (e, tv, b, predict_cognitive_load c e tv b)
      alertSent := (alertStep transport history (predict_cognitive_load c e tv b)).2
      newHistory := (alertStep transport history (predict_cognitive_load c e tv b)).1 }
  | _, _, _ =>
    { rowField := rowOf bs, featureRow := none, predictionRow := none,
      alertSent := none, newHistory := history }

/-- Run `n` consecutive aggregation cycles over a fixed per-cycle buffer
state, threading the alert history; returns the final history and each
cycle's sent alert. -/
def runCycles (c : MLComponents) (t : String → Except String Unit)
    (bs : String → List ℚ) : Nat → List String → List String × List (Option String)
  | 0, h => (h, [])
  | n + 1, h =>
    let out := aggregate_cycle c t bs h
    let rest := runCycles c t bs n out.newHistory
    (rest.1, out.alertSent :: rest.2)

/-- All four collaborators failed to load. -/
def noComponents : MLComponents := ⟨none, none, none, none⟩

/-- Loaded collaborators whose BVA scaler raises on every input. -/
def errComponents : MLComponents :=
  ⟨some (fun _ => Except.ok 0), some (fun fs => Except.ok fs),
   some (fun _ => Except.error "unseen value"), some (fun _ => Except.ok "low")⟩

/-- A buffer state with a full feature vector: steady EDA and T1 samples and a
PPG:IR window containing peaks and troughs. -/
def demoBuffers : String → List ℚ := fun key =>
  if key = "EDA" then [1/2]
  else if key = "T1" then [30]
  else if key = "PPG:IR" then [1, 5, 2, 8, 3, 9, 1, 6, 2, 7]
  else []

/-- A buffer state where `TEMP` has samples but `T1` has none. -/
def noT1Buffers : String → List ℚ := fun key =>
  if key = "TEMP" then [25]
  else if key = "EDA" then [1]
  else if key = "PPG:IR" then [1, 5, 2, 8, 3, 9, 1, 6, 2, 7]
  else []

theorem cycle_rowField (c : MLComponents) (t : String → Except String Unit)
    (bs : String → List ℚ) (h : List String) :
    (aggregate_cycle c t bs h).rowField = rowOf bs := by
  unfold aggregate_cycle
  split <;> rfl

theorem cycle_featureRow (c : MLComponents) (t : String → Except String Unit)
    (bs : String → List ℚ) (h : List String) :
    (aggregate_cycle c t bs h).featureRow =
      match rowOf bs "EDA", rowOf bs "T1",
          (compute_bva (bs "PPG:IR")).map (minmaxFitTransformSingle 0 1) with
      | some e, some tv, some b => some (e, tv, b)
      | _, _, _ => none := by
  unfold aggregate_cycle
  split <;> rfl

theorem rowOf_eda (bs : String → List ℚ) :
    rowOf bs "EDA" = channelField (bs "EDA") := by
  unfold rowOf
  rw [if_neg (by decide), if_pos (by decide)]

theorem rowOf_t1 (bs : String → List ℚ) :
    rowOf bs "T1" = channelField (bs "T1") := by
  unfold rowOf
  rw [if_neg (by decide), if_pos (by decide)]

theorem cycle_skip (c : MLComponents) (t : String → Except String Unit)
    (bs : String → List ℚ) (h : List String) (hnone : rowOf bs "T1" = none) :
    aggregate_cycle c t bs h =
      { rowField := rowOf bs, featureRow := none, predictionRow := none,
        alertSent := none, newHistory := h } := by
  unfold aggregate_cycle
  split
  · rename_i e tv b h1 h2 h3
    rw [hnone] at h2
    exact absurd h2 (by simp)
  · rfl

theorem minmax_single_eq_zero (v : ℚ) : minmaxFitTransformSingle 0 1 v = 0 := by
  unfold minmaxFitTransformSingle
  ring

/-- C5: the rescaled BVA fed to classification comes from a fresh min–max fit
over the single current value and is therefore the same fixed constant `0`
regardless of the raw BVA, while the aggregated row's `BVA` field (written to
the main data file) is the raw `compute_bva` value. -/
theorem bva_rescale_constant (c : MLComponents) (t : String → Except String Unit)
    (bs : String → List ℚ) (h : List String) (v w : ℚ) :
    minmaxFitTransformSingle 0 1 v = 0 ∧
    minmaxFitTransformSingle 0 1 v = minmaxFitTransformSingle 0 1 w ∧
    (aggregate_cycle c t bs h).rowField "BVA" = compute_bva (bs "PPG:IR") ∧
    (∀ e tv b, (aggregate_cycle c t bs h).featureRow = some (e, tv, b) →
      b = 0) := by
  refine ⟨minmax_single_eq_zero v,
    (minmax_single_eq_zero v).trans (minmax_single_eq_zero w).symm, ?_, ?_⟩
  · rw [cycle_rowField]
    unfold rowOf
    rw [if_pos rfl]
  · intro e tv b hb
    rw [cycle_featureRow] at hb
    split at hb
    · rename_i e' tv' b' h1 h2 h3
      obtain ⟨v0, hv0, hb'⟩ := Option.map_eq_some'.mp h3
      have : b = b' := by
        have := hb.symm
        simp only [Option.some.injEq, Prod.mk.injEq] at this
        exact this.2.2
      rw [this, ← hb']
      exact minmax_single_eq_zero v0
    · exact absurd hb (by simp)

unseal Rat.add Rat.mul Rat.sub Rat.inv in
theorem bva_rescale_constant_witness :
    minmaxFitTransformSingle 0 1 4 = 0 ∧
    (aggregate_cycle noComponents okTransport demoBuffers []).rowField "BVA" =
      compute_bva (demoBuffers "PPG:IR") ∧
    (0 : ℚ) = 0 := by
  obtain ⟨h1, h2, h3, h4⟩ := bva_rescale_constant noComponents okTransport
    demoBuffers [] 4 7
  exact ⟨h1, h3, h4 (1/2) 30 0 (by decide)⟩

/-- C6: if any of the four scoring collaborators failed to load,
`predict_cognitive_load` returns the fixed "model unavailable" sentinel for
every input; if the collaborators are loaded and the scoring pipeline raises,
it returns the fixed "prediction error" sentinel; and in every case it returns
either a sentinel or a pipeline-produced label — it never propagates an
exception (its result type is a plain `String`). -/
theorem predict_sentinels (c : MLComponents) (eda temp bva : ℚ) :
    ((c.clf = none ∨ c.std_scaler = none ∨ c.bva_scaler = none ∨
        c.label_encoder = none) →
      predict_cognitive_load c eda temp bva = "MODEL_NOT_LOADED") ∧
    (∀ clf stdS bvaS enc err,
      c = ⟨some clf, some stdS, some bvaS, some enc⟩ →
      scorePipeline bvaS stdS clf enc eda temp bva = Except.error err →
      predict_cognitive_load c eda temp bva = "PREDICTION_ERROR") ∧
    (predict_cognitive_load c eda temp bva = "MODEL_NOT_LOADED" ∨
     predict_cognitive_load c eda temp bva = "PREDICTION_ERROR" ∨
     ∃ clf stdS bvaS enc label,
       c = ⟨some clf, some stdS, some bvaS, some enc⟩ ∧
       scorePipeline bvaS stdS clf enc eda temp bva = Except.ok label ∧
       predict_cognitive_load c eda temp bva = label) := by
  obtain ⟨c1, c2, c3, c4⟩ := c
  refine ⟨?_, ?_, ?_⟩
  · intro hnone
    cases c1 <;> cases c2 <;> cases c3 <;> cases c4 <;>
      first
        | rfl
        | simp at hnone
  · intro clf stdS bvaS enc err hc herr
    cases hc
    simp only [predict_cognitive_load, herr]
  · cases c1 with
    | none => exact Or.inl rfl
    | some clf =>
      cases c2 with
      | none => exact Or.inl rfl
      | some stdS =>
        cases c3 with
        | none => exact Or.inl rfl
        | some bvaS =>
          cases c4 with
          | none => exact Or.inl rfl
          | some enc =>
            cases hres : scorePipeline bvaS stdS clf enc eda temp bva with
            | error err =>
              exact Or.inr (Or.inl (by simp only [predict_cognitive_load, hres]))
            | ok label =>
              exact Or.inr (Or.inr ⟨clf, stdS, bvaS, enc, label, rfl, hres,
                by simp only [predict_cognitive_load, hres]⟩)

theorem predict_sentinels_witness :
    predict_cognitive_load noComponents 1 2 3 = "MODEL_NOT_LOADED" ∧
    predict_cognitive_load errComponents 1 2 3 = "PREDICTION_ERROR" := by
  constructor
  · exact (predict_sentinels noComponents 1 2 3).1 (Or.inl rfl)
  · exact (predict_sentinels errComponents 1 2 3).2.1 _ _ _ _ "unseen value"
      rfl rfl

/-- C8: every tracked channel (every key of `fieldnames[1:]` other than the
derived `BVA` column) whose buffer is empty in a cycle gets the explicit
missing marker in the aggregated row — `none`, never `some 0` and never an
exception — while a channel with samples gets the arithmetic mean of its
buffered values. -/
theorem missing_channel_marker (c : MLComponents) (t : String → Except String Unit)
    (bs : String → List ℚ) (h : List String) (key : String)
    (hkey : key ∈ fieldnames.tail) (hbva : key ≠ "BVA") :
    (bs key = [] → (aggregate_cycle c t bs h).rowField key = none ∧
      (aggregate_cycle c t bs h).rowField key ≠ some 0) ∧
    (bs key ≠ [] → (aggregate_cycle c t bs h).rowField key =
      some ((bs key).sum / (bs key).length)) := by
  rw [cycle_rowField]
  unfold rowOf
  rw [if_neg hbva, if_pos hkey]
  constructor
  · intro hempty
    rw [hempty]
    exact ⟨rfl, by simp [channelField]⟩
  · intro hne
    unfold channelField
    rw [if_neg (by simpa using hne)]

theorem missing_channel_marker_witness :
    (aggregate_cycle noComponents okTransport demoBuffers []).rowField "TEMP" =
      none ∧
    (aggregate_cycle noComponents okTransport demoBuffers []).rowField "EDA" =
      some ((demoBuffers "EDA").sum / (demoBuffers "EDA").length) := by
  constructor
  · exact ((missing_channel_marker noComponents okTransport demoBuffers []
      "TEMP" (by decide) (by decide)).1 (by decide)).1
  · exact (missing_channel_marker noComponents okTransport demoBuffers []
      "EDA" (by decide) (by decide)).2 (by decide)

theorem cycle_full (c : MLComponents) (t : String → Except String Unit)
    (bs : String → List ℚ) (h : List String) (e tv b : ℚ)
    (h1 : rowOf bs "EDA" = some e) (h2 : rowOf bs "T1" = some tv)
    (h3 : (compute_bva (bs "PPG:IR")).map (minmaxFitTransformSingle 0 1) =
      some b) :
    aggregate_cycle c t bs h =
      { rowField := rowOf bs
        featureRow := some (e, tv, b)
        predictionRow := some (e, tv, b, predict_cognitive_load c e tv b)
        alertSent := (alertStep t h (predict_cognitive_load c e tv b)).2
        newHistory := (alertStep t h (predict_cognitive_load c e tv b)).1 } := by
  unfold aggregate_cycle
  rw [h1, h2, h3]

unseal Rat.add Rat.mul Rat.sub Rat.inv in
/-- C9: every label produced in a cycle with a full feature vector — the
"model unavailable" and "prediction error" sentinel strings included — is fed
to the alert debouncer exactly like any other label and counts toward
consensus; consequently, with no model loaded, ten consecutive full-feature
cycles from an empty history fire exactly one alert, at the tenth cycle,
carrying `ALERT|MODEL_NOT_LOADED`. -/
theorem sentinel_labels_count (c : MLComponents) (t : String → Except String Unit)
    (bs : String → List ℚ) (h : List String) :
    (∀ e tv b, (aggregate_cycle c t bs h).featureRow = some (e, tv, b) →
      (aggregate_cycle c t bs h).newHistory =
        (alertStep t h (predict_cognitive_load c e tv b)).1 ∧
      (aggregate_cycle c t bs h).alertSent =
        (alertStep t h (predict_cognitive_load c e tv b)).2) ∧
    runCycles noComponents okTransport demoBuffers 10 [] =
      ([], List.replicate 9 none ++ [some "ALERT|MODEL_NOT_LOADED"]) := by
  constructor
  · intro e tv b hb
    rw [cycle_featureRow] at hb
    split at hb
    · rename_i e' tv' b' h1 h2 h3
      simp only [Option.some.injEq, Prod.mk.injEq] at hb
      obtain ⟨he, htv, hbb⟩ := hb
      subst he
      subst htv
      subst hbb
      rw [cycle_full c t bs h e' tv' b' h1 h2 h3]
      exact ⟨rfl, rfl⟩
    · exact absurd hb (by simp)
  · decide

unseal Rat.add Rat.mul Rat.sub Rat.inv in
theorem sentinel_labels_count_witness :
    runCycles noComponents okTransport demoBuffers 10 [] =
      ([], List.replicate 9 none ++ [some "ALERT|MODEL_NOT_LOADED"]) ∧
    (aggregate_cycle noComponents okTransport demoBuffers []).newHistory =
      (alertStep okTransport []
        (predict_cognitive_load noComponents (1/2) 30 0)).1 := by
  refine ⟨(sentinel_labels_count noComponents okTransport demoBuffers []).2, ?_⟩
  exact ((sentinel_labels_count noComponents okTransport demoBuffers []).1
    (1/2) 30 0 (by decide)).1

/-- C10: the temperature component of the feature vector is the mean of
channel `T1` — the target of the `TEMP2 → T1` alias remap in
`generic_handler` — and never of the `TEMP` channel: the feature row's
temperature always equals the `T1` buffer mean, replacing the `TEMP` buffer
contents never changes the feature row, and in any cycle where `T1` has no
samples (whatever `TEMP` holds) no feature row, prediction row or
classification is produced and the alert history is untouched. -/
theorem temperature_from_t1 (c : MLComponents) (t : String → Except String Unit)
    (bs bs2 : String → List ℚ) (h : List String) :
    generic_handler_signal "/EmotiBit/0/TEMP2" = "T1" ∧
    (∀ e tv b, (aggregate_cycle c t bs h).featureRow = some (e, tv, b) →
      some tv = channelField (bs "T1")) ∧
    ((∀ k, k ≠ "TEMP" → bs2 k = bs k) →
      (aggregate_cycle c t bs2 h).featureRow =
        (aggregate_cycle c t bs h).featureRow) ∧
    (bs "T1" = [] →
      (aggregate_cycle c t bs h).featureRow = none ∧
      (aggregate_cycle c t bs h).predictionRow = none ∧
      (aggregate_cycle c t bs h).alertSent = none ∧
      (aggregate_cycle c t bs h).newHistory = h) := by
  refine ⟨by decide, ?_, ?_, ?_⟩
  · intro e tv b hb
    rw [cycle_featureRow] at hb
    split at hb
    · rename_i e' tv' b' h1 h2 h3
      simp only [Option.some.injEq, Prod.mk.injEq] at hb
      obtain ⟨he, htv, hbb⟩ := hb
      subst htv
      rw [← rowOf_t1, h2]
    · exact absurd hb (by simp)
  · intro hagree
    rw [cycle_featureRow, cycle_featureRow]
    simp only [rowOf_eda, rowOf_t1]
    rw [hagree "EDA" (by decide), hagree "T1" (by decide),
      hagree "PPG:IR" (by decide)]
  · intro hT1
    have hnone : rowOf bs "T1" = none := by
      rw [rowOf_t1, hT1]
      rfl
    rw [cycle_skip c t bs h hnone]
    exact ⟨rfl, rfl, rfl, rfl⟩

theorem temperature_from_t1_witness :
    generic_handler_signal "/EmotiBit/0/TEMP2" = "T1" ∧
    (aggregate_cycle noComponents okTransport noT1Buffers []).featureRow =
      none ∧
    (aggregate_cycle noComponents okTransport noT1Buffers []).newHistory = [] := by
  obtain ⟨g1, g2, g3, g4⟩ := temperature_from_t1 noComponents okTransport
    noT1Buffers noT1Buffers []
  have h4 := g4 (by decide)
  exact ⟨g1, h4.1, h4.2.2.2⟩
